import Mathlib

/-!
# Verification of the go-tuf-metadata trust engine

A shallow embedding of the metadata data model and the trust-refresh
pipeline of the `go-tuf-metadata` repository: the `Key`, `Role`,
`Signature` and role-payload types of `metadata/types.go`, the key
conversion and key-ID functions of `metadata/keys.go`, and the
signature-threshold verifier, trusted-metadata-set state machine, root
rotation engine and succinct-role delegation resolver described by the
design document.  Machine integers are modelled as `Nat` (with explicit
`% 2^32` where overflow matters), byte strings as `List Nat` of values
below 256, and fallible operations as `Option`/`Except`.

External collaborators (PEM/x509 codecs, the raw signature-check
primitive, fetch and persistence transports) are parameters of the
definitions that call them, exactly at the interface the design
document gives them.  SHA-256 itself is implemented concretely (FIPS
180-4) so that key IDs and succinct-bin indices are computable.
-/

/-! ## Bytes, words and SHA-256 (FIPS 180-4) -/

/-- Addition of two 32-bit words, reduced mod `2^32`. -/
def add32 (a b : Nat) : Nat := (a + b) % 4294967296

/-- Right rotation of a 32-bit word by `k` bits. -/
def rotr32 (x k : Nat) : Nat := ((x >>> k) ||| (x <<< (32 - k))) % 4294967296

/-- Bitwise complement of a 32-bit word. -/
def not32 (x : Nat) : Nat := x ^^^ 4294967295

/-- SHA-256 big Sigma-0. -/
def bsig0 (x : Nat) : Nat := rotr32 x 2 ^^^ rotr32 x 13 ^^^ rotr32 x 22

/-- SHA-256 big Sigma-1. -/
def bsig1 (x : Nat) : Nat := rotr32 x 6 ^^^ rotr32 x 11 ^^^ rotr32 x 25

/-- SHA-256 small sigma-0. -/
def ssig0 (x : Nat) : Nat := rotr32 x 7 ^^^ rotr32 x 18 ^^^ (x >>> 3)

/-- SHA-256 small sigma-1. -/
def ssig1 (x : Nat) : Nat := rotr32 x 17 ^^^ rotr32 x 19 ^^^ (x >>> 10)

/-- SHA-256 choice function. -/
def chFn (x y z : Nat) : Nat := (x &&& y) ^^^ (not32 x &&& z)

/-- SHA-256 majority function. -/
def majFn (x y z : Nat) : Nat := (x &&& y) ^^^ (x &&& z) ^^^ (y &&& z)

/-- The 64 SHA-256 round constants. -/
def sha256K : List Nat :=
  [1116352408, 1899447441, 3049323471, 3921009573, 961987163, 1508970993,
   2453635748, 2870763221, 3624381080, 310598401, 607225278, 1426881987,
   1925078388, 2162078206, 2614888103, 3248222580, 3835390401, 4022224774,
   264347078, 604807628, 770255983, 1249150122, 1555081692, 1996064986,
   2554220882, 2821834349, 2952996808, 3210313671, 3336571891, 3584528711,
   113926993, 338241895, 666307205, 773529912, 1294757372, 1396182291,
   1695183700, 1986661051, 2177026350, 2456956037, 2730485921, 2820302411,
   3259730800, 3345764771, 3516065817, 3600352804, 4094571909, 275423344,
   430227734, 506948616, 659060556, 883997877, 958139571, 1322822218,
   1537002063, 1747873779, 1955562222, 2024104815, 2227730452, 2361852424,
   2428436474, 2756734187, 3204031479, 3329325298]

/-- The eight 32-bit working variables of the SHA-256 compression function. -/
structure Sha256St where
  a : Nat
  b : Nat
  c : Nat
  d : Nat
  e : Nat
  f : Nat
  g : Nat
  h : Nat
deriving Repr, DecidableEq

/-- The SHA-256 initial hash value. -/
def sha256H0 : Sha256St :=
  ⟨1779033703, 3144134277, 1013904242, 2773480762,
   1359893119, 2600822924, 528734635, 1541459225⟩

/-- One round of the SHA-256 compression function. -/
def sha256Round (s : Sha256St) (ki wi : Nat) : Sha256St :=
  let t1 := add32 s.h (add32 (bsig1 s.e) (add32 (chFn s.e s.f s.g) (add32 ki wi)))
  let t2 := add32 (bsig0 s.a) (majFn s.a s.b s.c)
  ⟨add32 t1 t2, s.a, s.b, s.c, add32 s.d t1, s.e, s.f, s.g⟩

/-- Extend a 16-word message block by `fuel` schedule words. -/
def extendW (w : List Nat) : Nat → List Nat
  | 0 => w
  | n + 1 =>
      let i := w.length
      extendW (w ++ [add32 (add32 (ssig1 (w.getD (i - 2) 0)) (w.getD (i - 7) 0))
                     (add32 (ssig0 (w.getD (i - 15) 0)) (w.getD (i - 16) 0))]) n

/-- Process one 16-word block through the SHA-256 compression function. -/
def sha256Block (s : Sha256St) (block : List Nat) : Sha256St :=
  let w := extendW block 48
  let t := (sha256K.zip w).foldl (fun st p => sha256Round st p.1 p.2) s
  ⟨add32 s.a t.a, add32 s.b t.b, add32 s.c t.c, add32 s.d t.d,
   add32 s.e t.e, add32 s.f t.f, add32 s.g t.g, add32 s.h t.h⟩

/-- A natural number as eight big-endian bytes. -/
def be64 (n : Nat) : List Nat :=
  [n >>> 56 % 256, n >>> 48 % 256, n >>> 40 % 256, n >>> 32 % 256,
   n >>> 24 % 256, n >>> 16 % 256, n >>> 8 % 256, n % 256]

/-- A 32-bit word as four big-endian bytes. -/
def be32 (n : Nat) : List Nat :=
  [n >>> 24 % 256, n >>> 16 % 256, n >>> 8 % 256, n % 256]

/-- SHA-256 padding: a `0x80` byte, zeros to 56 mod 64, and the 64-bit bit length. -/
def sha256Pad (msg : List Nat) : List Nat :=
  let l := msg.length
  msg ++ [0x80] ++ List.replicate ((120 - (l + 1) % 64) % 64) 0 ++ be64 (8 * l)

/-- Group bytes into big-endian 32-bit words. -/
def bytesToWords : List Nat → List Nat
  | b0 :: b1 :: b2 :: b3 :: rest =>
      (b0 <<< 24 ||| b1 <<< 16 ||| b2 <<< 8 ||| b3) :: bytesToWords rest
  | _ => []

/-- Group a word list into 16-word blocks. -/
def chunk16 : List Nat → List (List Nat)
  | w0 :: w1 :: w2 :: w3 :: w4 :: w5 :: w6 :: w7 ::
    w8 :: w9 :: w10 :: w11 :: w12 :: w13 :: w14 :: w15 :: rest =>
      [w0, w1, w2, w3, w4, w5, w6, w7, w8, w9, w10, w11, w12, w13, w14, w15] :: chunk16 rest
  | [] => []
  | l => [l]

/-- SHA-256 of a byte list, as the 32 digest bytes. -/
def sha256 (msg : List Nat) : List Nat :=
  let blocks := chunk16 (bytesToWords (sha256Pad msg))
  let s := blocks.foldl sha256Block sha256H0
  be32 s.a ++ be32 s.b ++ be32 s.c ++ be32 s.d ++ be32 s.e ++ be32 s.f ++ be32 s.g ++ be32 s.h

/-! ## Hexadecimal encoding and decoding

`hexEncode` models Go `hex.EncodeToString` (always lower case);
`hexDecode` models Go `hex.DecodeString` (either case accepted, `none`
on an odd length or a non-hex byte). -/

/-- The lower-case hex digit for a value below 16. -/
def hexDigitChar (n : Nat) : Char := Char.ofNat (if n < 10 then 48 + n else 87 + n)

/-- Lower-case hex encoding of a byte list (Go `hex.EncodeToString`). -/
def hexEncode (bs : List Nat) : String :=
  String.mk (bs.flatMap (fun b => [hexDigitChar (b / 16 % 16), hexDigitChar (b % 16)]))

/-- The value of one hex digit, upper or lower case (Go `hex.DecodeString`). -/
def hexVal (c : Char) : Option Nat :=
  if 48 ≤ c.toNat ∧ c.toNat ≤ 57 then some (c.toNat - 48)
  else if 97 ≤ c.toNat ∧ c.toNat ≤ 102 then some (c.toNat - 87)
  else if 65 ≤ c.toNat ∧ c.toNat ≤ 70 then some (c.toNat - 55)
  else none

/-- Decode a hex character list two digits at a time (Go `hex.DecodeString`). -/
def hexDecodeChars : List Char → Option (List Nat)
  | [] => some []
  | c1 :: c2 :: rest =>
      match hexVal c1, hexVal c2, hexDecodeChars rest with
      | some h1, some h2, some bs => some ((h1 * 16 + h2) :: bs)
      | _, _, _ => none
  | [_] => none

/-- Decode a hex string to bytes (Go `hex.DecodeString`). -/
def hexDecode (s : String) : Option (List Nat) := hexDecodeChars s.data

/-- Big-endian reading of a byte list as a natural number. -/
def beNat (bs : List Nat) : Nat := bs.foldl (fun acc b => acc * 256 + b) 0

/-- Minimal-width lower-case hex digits of a number, most significant first. -/
def hexCore (n : Nat) : List Char :=
  if _h : n < 16 then [hexDigitChar n]
  else hexCore (n / 16) ++ [hexDigitChar (n % 16)]
termination_by n
decreasing_by
  exact Nat.div_lt_self (by omega) (by omega)

/-- Hex digits of `n`, zero-padded on the left to width `len`. -/
def hexPad (len n : Nat) : List Char :=
  List.replicate (len - (hexCore n).length) '0' ++ hexCore n

/-- Value of a hex digit list read most-significant-first (total, junk digits read as 0). -/
def unhex (cs : List Char) : Nat :=
  cs.foldl (fun acc c => acc * 16 + (hexVal c).getD 0) 0

/-! ## UTF-8 bytes of a string

Models the Go `[]byte(s)` conversion: the UTF-8 encoding of the
string's characters. -/

/-- UTF-8 encoding of a single character. -/
def utf8Char (c : Char) : List Nat :=
  let n := c.toNat
  if n < 0x80 then [n]
  else if n < 0x800 then [0xc0 ||| (n >>> 6), 0x80 ||| (n &&& 0x3f)]
  else if n < 0x10000 then
    [0xe0 ||| (n >>> 12), 0x80 ||| ((n >>> 6) &&& 0x3f), 0x80 ||| (n &&& 0x3f)]
  else
    [0xf0 ||| (n >>> 18), 0x80 ||| ((n >>> 12) &&& 0x3f),
     0x80 ||| ((n >>> 6) &&& 0x3f), 0x80 ||| (n &&& 0x3f)]

/-- UTF-8 bytes of a string (the Go `[]byte(s)` conversion). -/
def strBytes (s : String) : List Nat := s.data.flatMap utf8Char

/-! ## The metadata data model (`metadata/types.go`)

Each structure mirrors the JSON-visible fields of the Go struct of the
same name.  The `UnrecognizedFields` passthrough bags, which only
affect re-encoding of foreign fields, are not modelled; `time.Time`
expiry stamps are modelled as `Int` instants, `int64` versions as
`Nat` (TUF versions are `≥ 1`). -/

/-- The `keyval` object holding the public key material (`KeyVal` in `types.go`). -/
structure KeyVal where
  publicKey : String
deriving Repr, DecidableEq

/-- A TUF key: type, scheme and key material (`Key` in `types.go`).
The memoized `id`/`idOnce` fields are modelled separately by `CachedKey`. -/
structure Key where
  keyType : String
  scheme : String
  value : KeyVal
deriving Repr, DecidableEq

/-- A signature entry of the envelope (`Signature` in `types.go`):
a key ID and the raw signature bytes. -/
structure Signature where
  keyID : String
  sig : List Nat
deriving Repr, DecidableEq

/-- A role: its authorized key IDs and signature threshold (`Role` in `types.go`). -/
structure Role where
  keyIDs : List String
  threshold : Nat
deriving Repr, DecidableEq

/-- A succinct-roles bin descriptor (`SuccinctRoles` in `types.go`).
The Go field `NamePrefix` is named `prefixName` here. -/
structure SuccinctRoles where
  keyIDs : List String
  threshold : Nat
  bitLength : Nat
  prefixName : String
deriving Repr, DecidableEq

/-- A delegated role entry (`DelegatedRole` in `types.go`).
The Go field `PathHashPrefixes` is named `pathHashPrefs` here. -/
structure DelegatedRole where
  name : String
  keyIDs : List String
  threshold : Nat
  terminating : Bool
  pathHashPrefs : List String
  paths : List String
deriving Repr, DecidableEq

/-- The delegations object of a targets document (`Delegations` in `types.go`):
a shared key map and either an ordered role list or a succinct-bins descriptor. -/
structure Delegations where
  keys : List (String × Key)
  roles : List DelegatedRole
  succinctRoles : Option SuccinctRoles
deriving Repr, DecidableEq

/-- A meta-file entry of snapshot/timestamp metadata (`MetaFiles` in `types.go`). -/
structure MetaFile where
  length : Option Nat
  version : Nat
deriving Repr, DecidableEq

/-- A target-file entry of targets metadata (`TargetFiles` in `types.go`);
hashes are name-to-digest pairs. -/
structure TargetFile where
  length : Nat
  hashes : List (String × List Nat)
  path : String
deriving Repr, DecidableEq

/-- The signed portion of root metadata (`RootType` in `types.go`). -/
structure RootSigned where
  typ : String
  specVersion : String
  consistentSnapshot : Bool
  version : Nat
  expires : Int
  keys : List (String × Key)
  roles : List (String × Role)
deriving Repr, DecidableEq

/-- The signed portion of timestamp metadata (`TimestampType` in `types.go`). -/
structure TimestampSigned where
  typ : String
  specVersion : String
  version : Nat
  expires : Int
  meta : List (String × MetaFile)
deriving Repr, DecidableEq

/-- The signed portion of snapshot metadata (`SnapshotType` in `types.go`). -/
structure SnapshotSigned where
  typ : String
  specVersion : String
  version : Nat
  expires : Int
  meta : List (String × MetaFile)
deriving Repr, DecidableEq

/-- The signed portion of targets metadata (`TargetsType` in `types.go`). -/
structure TargetsSigned where
  typ : String
  specVersion : String
  version : Nat
  expires : Int
  targets : List (String × TargetFile)
  delegations : Option Delegations
deriving Repr, DecidableEq

/-- A signed root document: payload plus raw signature list
(`Metadata[RootType]` in `types.go`). -/
structure SignedRoot where
  signed : RootSigned
  signatures : List Signature
deriving Repr, DecidableEq

/-- A signed timestamp document (`Metadata[TimestampType]` in `types.go`). -/
structure SignedTimestamp where
  signed : TimestampSigned
  signatures : List Signature
deriving Repr, DecidableEq

/-- A signed snapshot document (`Metadata[SnapshotType]` in `types.go`). -/
structure SignedSnapshot where
  signed : SnapshotSigned
  signatures : List Signature
deriving Repr, DecidableEq

/-- A signed targets document (`Metadata[TargetsType]` in `types.go`). -/
structure SignedTargets where
  signed : TargetsSigned
  signatures : List Signature
deriving Repr, DecidableEq

/-! ## Canonical JSON and the key ID (`metadata/keys.go` `ID`)

`keys.go` computes a key's ID as the hex SHA-256 of the canonical-JSON
encoding of the key, memoized behind a `sync.Once` guard.  The
canonical encoding itself is produced by the external
`cjson.EncodeCanonical` dependency; `keyCanonicalJSON` below models it
for the `Key` wire object, following the documented canonical-JSON
rule: keys sorted lexicographically (`keytype` < `keyval` < `scheme`),
no insignificant whitespace, and only the backslash and the double
quote escaped in strings. -/

/-- Canonical-JSON escaping of one character: only backslash and double quote. -/
def jsonEscapeChar (c : Char) : List Char :=
  if c = '\\' then ['\\', '\\']
  else if c = '\"' then ['\\', '\"']
  else [c]

/-- A canonical-JSON string literal: quoted, with minimal escaping. -/
def jsonQuote (s : String) : String :=
  "\"" ++ String.mk (s.data.flatMap jsonEscapeChar) ++ "\""

/-- Modelled from the spec: the canonical-JSON encoding of a `Key` as produced
by the external `cjson.EncodeCanonical` call in `keys.go` `ID` (the cjson
library is not part of this repository). -/
def keyCanonicalJSON (k : Key) : String :=
  "\x7b\"keytype\":" ++ jsonQuote k.keyType ++
  ",\"keyval\":\x7b\"public\":" ++ jsonQuote k.value.publicKey ++
  "\x7d,\"scheme\":" ++ jsonQuote k.scheme ++ "\x7d"

/-- The key-ID value: lower-case hex SHA-256 of the canonical-JSON encoding
of the key (the computation inside `keys.go` `ID`). -/
def keyIDOf (k : Key) : String :=
  hexEncode (sha256 (strBytes (keyCanonicalJSON k)))

/-- A key together with its memoization cell: models the private `id` and
`idOnce` fields of the Go `Key` struct (`none` = the `sync.Once` has not
fired, which is the state of every freshly constructed key). -/
structure CachedKey where
  key : Key
  idCache : Option String
deriving Repr, DecidableEq

/-- The `ID()` method of `keys.go`: on the first call compute the hex SHA-256
of the canonical-JSON encoding of the key and store it; afterwards return the
stored value.  Returns the ID together with the post-call key state. -/
def CachedKey.ID (k : CachedKey) : String × CachedKey :=
  match k.idCache with
  | some v => (v, k)
  | none => (keyIDOf k.key, { k with idCache := some (keyIDOf k.key) })

/-! ## The signature-threshold verifier

Modelled from the spec: the `Verify(document, role)` contract of the
Key & Signature Verifier component (the Go implementation,
`VerifyDelegate`, is not under `src/`).  The raw cryptographic check of
one signature over the canonical signed bytes is an external
collaborator, passed in as the oracle `valid`. -/

/-- Modelled from the spec: the contribution of one signature entry — its key
ID when the entry's key ID is in the role's key set, the key ID resolves in
the delegator's key map, and the external check `valid` accepts the
signature; `none` (no contribution) otherwise. -/
def sigVerifiedID (keys : List (String × Key)) (valid : Key → Signature → Bool)
    (role : Role) (s : Signature) : Option String :=
  if role.keyIDs.contains s.keyID then
    match keys.lookup s.keyID with
    | some k => if valid k s then some s.keyID else none
    | none => none
  else none

/-- Modelled from the spec: the distinct successfully-verified key IDs of a
signature list against a role; duplicates are collapsed. -/
def verifiedKeyIDs (keys : List (String × Key)) (valid : Key → Signature → Bool)
    (role : Role) (sigs : List Signature) : List String :=
  (sigs.filterMap (sigVerifiedID keys valid role)).dedup

/-- Modelled from the spec: threshold acceptance — a document is accepted
for a role iff at least `role.threshold` distinct key IDs verified. -/
def verifyThreshold (keys : List (String × Key)) (valid : Key → Signature → Bool)
    (role : Role) (sigs : List Signature) : Bool :=
  role.threshold ≤ (verifiedKeyIDs keys valid role sigs).length

/-! ## The trusted metadata set and its transition guards

Modelled from the spec: the Trusted Metadata Set state machine of
§4.2 (the Go implementation, `trustedmetadata.TrustedMetadata`, is not
under `src/`).  Signature checks over each payload kind go through the
oracle bundle `SigOracle`, abstracting the external crypto primitive;
`now` is the injected current-time reference. -/

/-- The error taxonomy of the design document (kinds, not concrete types). -/
inductive TufError
  | unsignedMetadata
  | replayedMetadata
  | expiredMetadata
  | badVersion
  | typeMismatch
  | missingRole
  | outOfOrder
  | maxRotationsExceeded
deriving Repr, DecidableEq

/-- The external signature-check primitive, one oracle per payload kind:
each decides whether one signature by one key is valid over the canonical
bytes of the given signed payload. -/
structure SigOracle where
  forRoot : RootSigned → Key → Signature → Bool
  forTimestamp : TimestampSigned → Key → Signature → Bool
  forSnapshot : SnapshotSigned → Key → Signature → Bool
  forTargets : TargetsSigned → Key → Signature → Bool

/-- The live trust state: the trusted root (always present after bootstrap),
the optional trusted timestamp and snapshot, and the verified targets
documents keyed by role name (top-level under `"targets"`). -/
structure TrustedSet where
  root : SignedRoot
  timestamp : Option SignedTimestamp
  snapshot : Option SignedSnapshot
  targets : List (String × SignedTargets)
deriving Repr, DecidableEq

/-- Modelled from the spec: the root-update guard of §4.2 — the candidate
must carry the `root` type tag, be signed at threshold by the previous
trusted root's `root` role key set and by its own `root` role key set, and
its version must equal the previous version plus exactly one.  Expiry is
not checked here (it is checked only on the final root of a rotation).
On success the candidate itself is the new trusted root document. -/
def updateRootDoc (oracle : SigOracle) (trusted cand : SignedRoot) :
    Except TufError SignedRoot :=
  if cand.signed.typ ≠ "root" then .error .typeMismatch
  else
    match trusted.signed.roles.lookup "root", cand.signed.roles.lookup "root" with
    | some oldRole, some newRole =>
        if ¬ verifyThreshold trusted.signed.keys (oracle.forRoot cand.signed) oldRole
            cand.signatures then .error .unsignedMetadata
        else if ¬ verifyThreshold cand.signed.keys (oracle.forRoot cand.signed) newRole
            cand.signatures then .error .unsignedMetadata
        else if cand.signed.version ≠ trusted.signed.version + 1 then .error .badVersion
        else .ok cand
    | _, _ => .error .missingRole

/-- Modelled from the spec: bootstrap of the Trusted Metadata Set from the
local trusted root bytes — the root must carry the `root` type tag and be
signed at threshold by its own `root` role; the resulting state is
root-only (no timestamp, no snapshot, no targets). -/
def newTrustedSet (oracle : SigOracle) (root : SignedRoot) : Except TufError TrustedSet :=
  if root.signed.typ ≠ "root" then .error .typeMismatch
  else
    match root.signed.roles.lookup "root" with
    | some selfRole =>
        if verifyThreshold root.signed.keys (oracle.forRoot root.signed) selfRole
            root.signatures then
          .ok { root := root, timestamp := none, snapshot := none, targets := [] }
        else .error .unsignedMetadata
    | none => .error .missingRole

/-- Modelled from the spec: a root update inside the Trusted Metadata Set.
Roots are only updated in the root-only state (the states advance in strict
forward order, none revisited), via the `updateRootDoc` guard. -/
def tmsUpdateRoot (oracle : SigOracle) (ts : TrustedSet) (cand : SignedRoot) :
    Except TufError TrustedSet :=
  if ts.timestamp.isSome then .error .outOfOrder
  else
    match updateRootDoc oracle ts.root cand with
    | .ok r => .ok { ts with root := r }
    | .error e => .error e

/-- Modelled from the spec: the timestamp-update guard of §4.2 — signed by
the current root's `timestamp` role, version not lower than the previously
trusted timestamp (equal tolerated as a no-op), not expired at `now`. -/
def tmsUpdateTimestamp (oracle : SigOracle) (now : Int) (ts : TrustedSet)
    (cand : SignedTimestamp) : Except TufError TrustedSet :=
  if cand.signed.typ ≠ "timestamp" then .error .typeMismatch
  else
    match ts.root.signed.roles.lookup "timestamp" with
    | none => .error .missingRole
    | some role =>
        if ¬ verifyThreshold ts.root.signed.keys (oracle.forTimestamp cand.signed) role
            cand.signatures then .error .unsignedMetadata
        else
          match ts.timestamp with
          | some old =>
              if cand.signed.version < old.signed.version then .error .replayedMetadata
              else if cand.signed.version = old.signed.version then .ok ts
              else if cand.signed.expires ≤ now then .error .expiredMetadata
              else .ok { ts with timestamp := some cand }
          | none =>
              if cand.signed.expires ≤ now then .error .expiredMetadata
              else .ok { ts with timestamp := some cand }

/-- Modelled from the spec: the snapshot-update guard of §4.2 — only after a
trusted timestamp exists; signed by the current root's `snapshot` role; when
`consistent_snapshot` is set the version must equal the version pinned by the
trusted timestamp's `meta["snapshot.json"]` entry; version not lower than the
previously trusted snapshot; meta entries of the old snapshot must survive
with versions not lower; not expired at `now`. -/
def tmsUpdateSnapshot (oracle : SigOracle) (now : Int) (ts : TrustedSet)
    (cand : SignedSnapshot) : Except TufError TrustedSet :=
  match ts.timestamp with
  | none => .error .outOfOrder
  | some tstamp =>
      if cand.signed.typ ≠ "snapshot" then .error .typeMismatch
      else
        match ts.root.signed.roles.lookup "snapshot" with
        | none => .error .missingRole
        | some role =>
            if ¬ verifyThreshold ts.root.signed.keys (oracle.forSnapshot cand.signed) role
                cand.signatures then .error .unsignedMetadata
            else if ts.root.signed.consistentSnapshot &&
                (match tstamp.signed.meta.lookup "snapshot.json" with
                 | some m => cand.signed.version != m.version
                 | none => true) then .error .badVersion
            else
              match ts.snapshot with
              | some old =>
                  if cand.signed.version < old.signed.version then .error .replayedMetadata
                  else if ¬ (old.signed.meta.all (fun p =>
                      match cand.signed.meta.lookup p.1 with
                      | some m => decide (p.2.version ≤ m.version)
                      | none => false)) then .error .replayedMetadata
                  else if cand.signed.expires ≤ now then .error .expiredMetadata
                  else .ok { ts with snapshot := some cand }
              | none =>
                  if cand.signed.expires ≤ now then .error .expiredMetadata
                  else .ok { ts with snapshot := some cand }

/-- Modelled from the spec: the targets-update guard of §4.2 (top-level or
delegated) — only after a trusted snapshot exists; signed by the delegating
role (the current root's `targets` role for top-level, the given delegated
role otherwise); version exactly as recorded for the role in the trusted
snapshot's meta map; not expired at `now`. -/
def tmsUpdateTargets (oracle : SigOracle) (now : Int) (ts : TrustedSet)
    (delegator : Role) (delegatorKeys : List (String × Key)) (roleName : String)
    (cand : SignedTargets) : Except TufError TrustedSet :=
  match ts.snapshot with
  | none => .error .outOfOrder
  | some snap =>
      if cand.signed.typ ≠ "targets" then .error .typeMismatch
      else if ¬ verifyThreshold delegatorKeys (oracle.forTargets cand.signed) delegator
          cand.signatures then .error .unsignedMetadata
      else
        match snap.signed.meta.lookup (roleName ++ ".json") with
        | none => .error .missingRole
        | some m =>
            if cand.signed.version ≠ m.version then .error .badVersion
            else if cand.signed.expires ≤ now then .error .expiredMetadata
            else .ok { ts with targets := (roleName, cand) :: ts.targets }

/-- The states a Trusted Metadata Set can actually be driven into: the
bootstrap state and everything reachable from it through the four update
guards. -/
inductive TmsReachable (oracle : SigOracle) (now : Int) : TrustedSet → Prop
  | boot (root : SignedRoot) (s : TrustedSet) :
      newTrustedSet oracle root = .ok s → TmsReachable oracle now s
  | rootStep (s s' : TrustedSet) (cand : SignedRoot) :
      TmsReachable oracle now s → tmsUpdateRoot oracle s cand = .ok s' →
      TmsReachable oracle now s'
  | timestampStep (s s' : TrustedSet) (cand : SignedTimestamp) :
      TmsReachable oracle now s → tmsUpdateTimestamp oracle now s cand = .ok s' →
      TmsReachable oracle now s'
  | snapshotStep (s s' : TrustedSet) (cand : SignedSnapshot) :
      TmsReachable oracle now s → tmsUpdateSnapshot oracle now s cand = .ok s' →
      TmsReachable oracle now s'
  | targetsStep (s s' : TrustedSet) (delegator : Role)
      (delegatorKeys : List (String × Key)) (roleName : String) (cand : SignedTargets) :
      TmsReachable oracle now s →
      tmsUpdateTargets oracle now s delegator delegatorKeys roleName cand = .ok s' →
      TmsReachable oracle now s'

/-- The ordering invariant of the trust state: a snapshot is only ever
present once a timestamp is, and targets are only ever present once a
snapshot is (the root is present by construction). -/
def TmsOrdered (s : TrustedSet) : Prop :=
  (s.snapshot.isSome → s.timestamp.isSome) ∧ (s.targets ≠ [] → s.snapshot.isSome)

/-! ## The root rotation engine and the refresh root stage

Modelled from the spec: the `RotateRoot` contract of §4.3 (the Go
implementation, `Updater.loadRoot`, is not under `src/`).  `fetch v`
is the external transport returning the published root document of
version `v`, or `none` when that version does not exist. -/

/-- Whether a document's expiry stamp is at or before the current-time
reference (the `ExpiredMetadataError` condition of the design document). -/
def rootExpired (r : SignedRoot) (now : Int) : Bool := r.signed.expires ≤ now

/-- Modelled from the spec: the chained rotation walk — starting from the
trusted root, repeatedly fetch the root of the next version and pass it
through the root-update guard against the immediately preceding root, at
most `budget` times.  A missing next version or a rejected candidate stops
the walk with the last accepted root.  The Boolean result reports whether
the walk ran out of budget with yet another version still published
(the `MaxRotationsExceeded` condition); expiry is never consulted here. -/
def rotateRoot (oracle : SigOracle) (fetch : Nat → Option SignedRoot) :
    SignedRoot → Nat → SignedRoot × Bool
  | trusted, 0 => (trusted, (fetch (trusted.signed.version + 1)).isSome)
  | trusted, budget + 1 =>
      match fetch (trusted.signed.version + 1) with
      | none => (trusted, false)
      | some cand =>
          match updateRootDoc oracle trusted cand with
          | .error _ => (trusted, false)
          | .ok r => rotateRoot oracle fetch r budget

/-- The client-visible trust state of the root stage: the in-memory Trusted
Metadata Set plus the root document last handed to the persistence
collaborator (the local `root.json`). -/
structure ClientState where
  trusted : TrustedSet
  persistedRoot : SignedRoot
deriving Repr, DecidableEq

/-- Modelled from the spec: one candidate-root presentation during refresh —
the candidate passes the root-update guard and is then installed in memory
and persisted, or it is rejected with an error and both the in-memory state
and the persisted document are left untouched. -/
def rootRefreshStep (oracle : SigOracle) (st : ClientState) (cand : SignedRoot) :
    ClientState × Option TufError :=
  match tmsUpdateRoot oracle st.trusted cand with
  | .ok ts => ({ trusted := ts, persistedRoot := cand }, none)
  | .error e => (st, some e)

/-- Modelled from the spec: the root stage of a refresh — run the bounded
rotation walk from the current trusted root, then apply the expiry check to
the final root reached: an expired final root is rejected (the previous
trusted state stays active and nothing is persisted), otherwise the final
root is installed and persisted, reporting `maxRotationsExceeded` when the
walk ran out of budget with more versions still published. -/
def loadRoot (oracle : SigOracle) (now : Int) (fetch : Nat → Option SignedRoot)
    (st : ClientState) (maxRotations : Nat) : ClientState × Option TufError :=
  let walk := rotateRoot oracle fetch st.trusted.root maxRotations
  if rootExpired walk.1 now then (st, some .expiredMetadata)
  else
    ({ trusted := { st.trusted with root := walk.1 }, persistedRoot := walk.1 },
     if walk.2 then some .maxRotationsExceeded else none)

/-! ## Succinct-role bin resolution

Modelled from the spec: the succinct-role form of the Delegation
Resolver (§4.4); the Go implementation (`SuccinctRoles` methods) is not
under `src/`, only the descriptor struct of `types.go` is. -/

/-- Modelled from the spec: the bin index of a target path — `bitLen` bits
of SHA-256 of the path taken big-endian, most significant bits first: the
leading `bitLen` bits of the digest, obtained by shifting its leading
32-bit word right by `32 - bitLen`. -/
def binIndex (bitLen : Nat) (path : String) : Nat :=
  beNat ((sha256 (strBytes path)).take 4) >>> (32 - bitLen)

/-- The zero-padded hex width of a bin suffix: the number of hex digits
of the highest bin index `2^bitLen - 1`. -/
def binSuffixLen (bitLen : Nat) : Nat := (hexCore (2 ^ bitLen - 1)).length

/-- Modelled from the spec: the bin role responsible for a target path —
the descriptor's name prefix followed by the zero-padded hex of the
path's bin index. -/
def SuccinctRoles.getRoleForTarget (sr : SuccinctRoles) (path : String) : String :=
  sr.prefixName ++ String.mk (hexPad (binSuffixLen sr.bitLength) (binIndex sr.bitLength path))

/-! ## Key conversion (`metadata/keys.go`)

`ToPublicKey` and `KeyFromPublicKey`, with the external PEM/x509 codec
of the sigstore/x509 dependencies passed in as parameters: `pemParse`
models `cryptoutils.UnmarshalPEMToPublicKey`, `pemMake` models
`cryptoutils.MarshalPublicKeyToPEM`, and `pkixOK` models the
`x509.MarshalPKIXPublicKey` verification round. -/

/-- A decoded `crypto.PublicKey` value: one of the shapes the key codec
distinguishes, plus an `otherKey` catch-all for every unsupported shape. -/
inductive PubKey
  | rsa (modulus expo : Nat)
  | ecdsa (px py : Nat)
  | ed25519 (bytes : List Nat)
  | otherKey
deriving Repr, DecidableEq

/-- The key type and scheme string constants of `keys.go`. -/
def KeyTypeEd25519 : String := "ed25519"

/-- The standard ECDSA-P256 key type string. -/
def KeyTypeECDSA_SHA2_P256 : String := "ecdsa-sha2-nistp256"

/-- The python-tuf/sslib spelling of the ECDSA key type. -/
def KeyTypeECDSA_SHA2_P256_SSLIB : String := "ecdsa"

/-- The RSA-PSS-SHA256 key type string. -/
def KeyTypeRSASSA_PSS_SHA256 : String := "rsa"

/-- The Ed25519 scheme string. -/
def KeySchemeEd25519 : String := "ed25519"

/-- The ECDSA-P256 scheme string. -/
def KeySchemeECDSA_SHA2_P256 : String := "ecdsa-sha2-nistp256"

/-- The RSA-PSS-SHA256 scheme string. -/
def KeySchemeRSASSA_PSS_SHA256 : String := "rsassa-pss-sha256"

/-- The `ToPublicKey` method of `keys.go`: switch on the declared key type;
for RSA and the two accepted ECDSA type strings, PEM-decode the stored
material and require the decoded shape to match the declared type; for
Ed25519, hex-decode the raw material; in every branch run the
`x509.MarshalPKIXPublicKey` verification round; any other declared type is
the hard error `unsupported public key type`. -/
def Key.toPublicKey (pemParse : String → Except String PubKey) (pkixOK : PubKey → Bool)
    (k : Key) : Except String PubKey :=
  if k.keyType = KeyTypeRSASSA_PSS_SHA256 then
    match pemParse k.value.publicKey with
    | .error e => .error e
    | .ok pk =>
        match pk with
        | .rsa m e => if pkixOK (.rsa m e) then .ok (.rsa m e) else .error "pkix marshal failed"
        | _ => .error "invalid rsa public key"
  else if k.keyType = KeyTypeECDSA_SHA2_P256 ∨ k.keyType = KeyTypeECDSA_SHA2_P256_SSLIB then
    match pemParse k.value.publicKey with
    | .error e => .error e
    | .ok pk =>
        match pk with
        | .ecdsa x y => if pkixOK (.ecdsa x y) then .ok (.ecdsa x y) else .error "pkix marshal failed"
        | _ => .error "invalid ecdsa public key"
  else if k.keyType = KeyTypeEd25519 then
    match hexDecode k.value.publicKey with
    | none => .error "encoding-hex decode failed"
    | some bs => if pkixOK (.ed25519 bs) then .ok (.ed25519 bs) else .error "pkix marshal failed"
  else .error "unsupported public key type"

/-- The `KeyFromPublicKey` function of `keys.go`: build the metadata `Key`
for a `crypto.PublicKey` — PEM-encode RSA and ECDSA material, hex-encode
Ed25519 material, and reject every other shape. -/
def keyFromPublicKey (pemMake : PubKey → Except String String) :
    PubKey → Except String Key
  | .rsa m e =>
      match pemMake (.rsa m e) with
      | .error err => .error err
      | .ok pem =>
          .ok { keyType := KeyTypeRSASSA_PSS_SHA256, scheme := KeySchemeRSASSA_PSS_SHA256,
                value := { publicKey := pem } }
  | .ecdsa x y =>
      match pemMake (.ecdsa x y) with
      | .error err => .error err
      | .ok pem =>
          .ok { keyType := KeyTypeECDSA_SHA2_P256, scheme := KeySchemeECDSA_SHA2_P256,
                value := { publicKey := pem } }
  | .ed25519 bs =>
      .ok { keyType := KeyTypeEd25519, scheme := KeySchemeEd25519,
            value := { publicKey := hexEncode bs } }
  | .otherKey => .error "unsupported public key type"

/-! ## Supporting lemmas for the threshold verifier -/

/-- Signature entries that contribute nothing (invalid or unknown-key
entries) can be appended without changing the verified-key-ID list. -/
lemma verifiedKeyIDs_append_invalid (keys : List (String × Key))
    (valid : Key → Signature → Bool) (role : Role) (sigs extra : List Signature)
    (hextra : ∀ e ∈ extra, sigVerifiedID keys valid role e = none) :
    verifiedKeyIDs keys valid role (sigs ++ extra) = verifiedKeyIDs keys valid role sigs := by
  unfold verifiedKeyIDs
  rw [List.filterMap_append]
  have : extra.filterMap (sigVerifiedID keys valid role) = [] :=
    List.filterMap_eq_nil_iff.mpr hextra
  rw [this, List.append_nil]

/-- A duplicated signature entry contributes its key ID only once. -/
lemma verifiedKeyIDs_dup (keys : List (String × Key))
    (valid : Key → Signature → Bool) (role : Role) (sigs : List Signature)
    (s : Signature) :
    verifiedKeyIDs keys valid role (s :: s :: sigs) =
      verifiedKeyIDs keys valid role (s :: sigs) := by
  unfold verifiedKeyIDs
  cases h : sigVerifiedID keys valid role s with
  | none => simp [List.filterMap_cons, h]
  | some x =>
      simp only [List.filterMap_cons, h]
      exact List.dedup_cons_of_mem (List.mem_cons_self x _)

/-! ## Concrete test fixtures

Small concrete instances used by the witness theorems: an oracle that
accepts every signature, a key, and a family of root documents with one
authorized root key at threshold 1. -/

/-- A signature oracle that accepts every signature (witness fixture). -/
def alwaysOracle : SigOracle :=
  { forRoot := fun _ _ _ => true, forTimestamp := fun _ _ _ => true,
    forSnapshot := fun _ _ _ => true, forTargets := fun _ _ _ => true }

/-- A concrete Ed25519 key (witness fixture). -/
def testKeyA : Key :=
  { keyType := "ed25519", scheme := "ed25519", value := { publicKey := "beef" } }

/-- A concrete root document of the given version and expiry, with one
authorized root key at threshold 1 (witness fixture). -/
def mkRootVE (v : Nat) (exp : Int) : SignedRoot :=
  { signed :=
      { typ := "root", specVersion := "1.0.31", consistentSnapshot := true,
        version := v, expires := exp, keys := [("idA", testKeyA)],
        roles := [("root", { keyIDs := ["idA"], threshold := 1 }),
                  ("timestamp", { keyIDs := ["idA"], threshold := 1 }),
                  ("snapshot", { keyIDs := ["idA"], threshold := 1 }),
                  ("targets", { keyIDs := ["idA"], threshold := 1 })] },
    signatures := [{ keyID := "idA", sig := [1] }] }

/-- A concrete root document of the given version, expiring at time 100
(witness fixture). -/
def mkRoot (v : Nat) : SignedRoot := mkRootVE v 100

/-- The root-only trust state bootstrapped from `mkRoot 1` (witness fixture). -/
def tms0 : TrustedSet :=
  { root := mkRoot 1, timestamp := none, snapshot := none, targets := [] }

/-- The client state holding `tms0` with `mkRoot 1` persisted (witness fixture). -/
def clientSt0 : ClientState := { trusted := tms0, persistedRoot := mkRoot 1 }

/-! ## Claim C1 -/

/-- Claim C1: signature verification counts distinct successfully-verified
key IDs — a duplicated entry counts once and the verified list is free of
duplicates; a document whose distinct valid count is below the role's
threshold is rejected; a document whose distinct valid count reaches the
threshold is accepted even with extra invalid or unknown-key entries
appended. -/
theorem signature_threshold_verification (keys : List (String × Key))
    (valid : Key → Signature → Bool) (role : Role)
    (sigs extra : List Signature) (s : Signature)
    (hextra : ∀ e ∈ extra, sigVerifiedID keys valid role e = none) :
    ((verifiedKeyIDs keys valid role sigs).length < role.threshold →
      verifyThreshold keys valid role sigs = false)
    ∧ (role.threshold ≤ (verifiedKeyIDs keys valid role sigs).length →
      verifyThreshold keys valid role (sigs ++ extra) = true)
    ∧ verifiedKeyIDs keys valid role (s :: s :: sigs) =
        verifiedKeyIDs keys valid role (s :: sigs)
    ∧ (verifiedKeyIDs keys valid role sigs).Nodup := by
  refine ⟨?_, ?_, ?_, ?_⟩
  · intro h
    simp only [verifyThreshold, decide_eq_false_iff_not]
    omega
  · intro h
    simp only [verifyThreshold, verifiedKeyIDs_append_invalid keys valid role sigs extra hextra,
      decide_eq_true_eq]
    exact h
  · exact verifiedKeyIDs_dup keys valid role sigs s
  · exact List.nodup_dedup _

/-- Witness for C1: a concrete role with threshold 2, two distinct valid
keys signing (one of them twice), one invalid and one unknown-key entry
appended — accepted; and with only one valid key — rejected. -/
theorem signature_threshold_verification_witness :
    verifyThreshold [("k1", testKeyA), ("k2", testKeyA)]
        (fun _ s => s.sig == [1]) { keyIDs := ["k1", "k2"], threshold := 2 }
        ([⟨"k1", [1]⟩, ⟨"k1", [1]⟩, ⟨"k2", [1]⟩] ++ [⟨"k2", [0]⟩, ⟨"zz", [1]⟩]) = true
    ∧ verifyThreshold [("k1", testKeyA), ("k2", testKeyA)]
        (fun _ s => s.sig == [1]) { keyIDs := ["k1", "k2"], threshold := 2 }
        [⟨"k1", [1]⟩, ⟨"k1", [1]⟩] = false := by
  constructor
  · exact (signature_threshold_verification [("k1", testKeyA), ("k2", testKeyA)]
      (fun _ s => s.sig == [1]) { keyIDs := ["k1", "k2"], threshold := 2 }
      [⟨"k1", [1]⟩, ⟨"k1", [1]⟩, ⟨"k2", [1]⟩] [⟨"k2", [0]⟩, ⟨"zz", [1]⟩]
      ⟨"k1", [1]⟩ (by decide)).2.1 (by decide)
  · exact (signature_threshold_verification [("k1", testKeyA), ("k2", testKeyA)]
      (fun _ s => s.sig == [1]) { keyIDs := ["k1", "k2"], threshold := 2 }
      [⟨"k1", [1]⟩, ⟨"k1", [1]⟩] [] ⟨"k1", [1]⟩ (by decide)).1 (by decide)

/-- Claim C2: every accepted root transition installs exactly the candidate,
its version is the previous trusted version plus exactly one, and the
candidate is signed at threshold both by the previous trusted root's
`root` role key set and by its own `root` role key set. -/
theorem root_transition_guard (oracle : SigOracle) (trusted cand newRoot : SignedRoot)
    (h : updateRootDoc oracle trusted cand = .ok newRoot) :
    newRoot = cand
    ∧ cand.signed.version = trusted.signed.version + 1
    ∧ ∃ oldRole newRole,
        trusted.signed.roles.lookup "root" = some oldRole
        ∧ cand.signed.roles.lookup "root" = some newRole
        ∧ verifyThreshold trusted.signed.keys (oracle.forRoot cand.signed) oldRole
            cand.signatures = true
        ∧ verifyThreshold cand.signed.keys (oracle.forRoot cand.signed) newRole
            cand.signatures = true := by
  unfold updateRootDoc at h
  split at h
  · exact absurd h (by simp)
  split at h
  next oldRole newRole hold hnew =>
    split at h
    · exact absurd h (by simp)
    next hv1 =>
      split at h
      · exact absurd h (by simp)
      next hv2 =>
        split at h
        · exact absurd h (by simp)
        next hver =>
          injection h with h
          refine ⟨h.symm, by omega, oldRole, newRole, hold, hnew, ?_, ?_⟩
          · simpa using hv1
          · simpa using hv2
  next hfall => exact absurd h (by simp)

/-- Witness for C2: the concrete guarded transition from `mkRoot 1` to
`mkRoot 2` is accepted and steps the version by exactly one. -/
theorem root_transition_guard_witness :
    (mkRoot 2).signed.version = (mkRoot 1).signed.version + 1 := by
  exact (root_transition_guard alwaysOracle (mkRoot 1) (mkRoot 2) (mkRoot 2)
    (by rfl)).2.1

/-! ## Claim C6 -/

/-- Bootstrap produces exactly the root-only state. -/
lemma newTrustedSet_ok (oracle : SigOracle) (root : SignedRoot) (s : TrustedSet)
    (h : newTrustedSet oracle root = .ok s) :
    s = { root := root, timestamp := none, snapshot := none, targets := [] } := by
  unfold newTrustedSet at h
  split at h
  · exact absurd h (by simp)
  split at h
  next selfRole hrole =>
    split at h
    · injection h with h
      exact h.symm
    · exact absurd h (by simp)
  next => exact absurd h (by simp)

/-- A root update never touches the timestamp, snapshot or targets fields. -/
lemma tmsUpdateRoot_ok (oracle : SigOracle) (ts : TrustedSet) (cand : SignedRoot)
    (ts' : TrustedSet) (h : tmsUpdateRoot oracle ts cand = .ok ts') :
    ts'.timestamp = ts.timestamp ∧ ts'.snapshot = ts.snapshot ∧ ts'.targets = ts.targets := by
  unfold tmsUpdateRoot at h
  split at h
  · exact absurd h (by simp)
  split at h
  next r hr =>
    injection h with h
    subst h
    exact ⟨rfl, rfl, rfl⟩
  next e he => exact absurd h (by simp)

/-- An accepted timestamp update leaves a timestamp present and never touches
the snapshot or targets fields. -/
lemma tmsUpdateTimestamp_ok (oracle : SigOracle) (now : Int) (ts : TrustedSet)
    (cand : SignedTimestamp) (ts' : TrustedSet)
    (h : tmsUpdateTimestamp oracle now ts cand = .ok ts') :
    ts'.timestamp.isSome = true ∧ ts'.snapshot = ts.snapshot ∧ ts'.targets = ts.targets := by
  unfold tmsUpdateTimestamp at h
  split at h
  · exact absurd h (by simp)
  split at h
  · exact absurd h (by simp)
  next role hrole =>
    split at h
    · exact absurd h (by simp)
    split at h
    next old hold =>
      split at h
      · exact absurd h (by simp)
      split at h
      · injection h with h
        subst h
        exact ⟨by simp [hold], rfl, rfl⟩
      split at h
      · exact absurd h (by simp)
      · injection h with h
        subst h
        exact ⟨rfl, rfl, rfl⟩
    next hnone =>
      split at h
      · exact absurd h (by simp)
      · injection h with h
        subst h
        exact ⟨rfl, rfl, rfl⟩

/-- An accepted snapshot update presupposes a trusted timestamp, leaves a
snapshot present, and never touches the timestamp or targets fields. -/
lemma tmsUpdateSnapshot_ok (oracle : SigOracle) (now : Int) (ts : TrustedSet)
    (cand : SignedSnapshot) (ts' : TrustedSet)
    (h : tmsUpdateSnapshot oracle now ts cand = .ok ts') :
    ts.timestamp.isSome = true ∧ ts'.timestamp = ts.timestamp
    ∧ ts'.snapshot.isSome = true ∧ ts'.targets = ts.targets := by
  unfold tmsUpdateSnapshot at h
  split at h
  · exact absurd h (by simp)
  next tstamp htstamp =>
    split at h
    · exact absurd h (by simp)
    split at h
    · exact absurd h (by simp)
    next role hrole =>
      split at h
      · exact absurd h (by simp)
      split at h
      · exact absurd h (by simp)
      split at h
      next old hold =>
        split at h
        · exact absurd h (by simp)
        split at h
        · exact absurd h (by simp)
        split at h
        · exact absurd h (by simp)
        · injection h with h
          subst h
          exact ⟨by simp [htstamp], rfl, by simp, rfl⟩
      next hnone =>
        split at h
        · exact absurd h (by simp)
        · injection h with h
          subst h
          exact ⟨by simp [htstamp], rfl, by simp, rfl⟩

/-- An accepted targets update presupposes a trusted snapshot and never
touches the timestamp or snapshot fields. -/
lemma tmsUpdateTargets_ok (oracle : SigOracle) (now : Int) (ts : TrustedSet)
    (delegator : Role) (delegatorKeys : List (String × Key)) (roleName : String)
    (cand : SignedTargets) (ts' : TrustedSet)
    (h : tmsUpdateTargets oracle now ts delegator delegatorKeys roleName cand = .ok ts') :
    ts.snapshot.isSome = true ∧ ts'.timestamp = ts.timestamp ∧ ts'.snapshot = ts.snapshot := by
  unfold tmsUpdateTargets at h
  split at h
  · exact absurd h (by simp)
  next snap hsnap =>
    split at h
    · exact absurd h (by simp)
    split at h
    · exact absurd h (by simp)
    split at h
    · exact absurd h (by simp)
    next m hm =>
      split at h
      · exact absurd h (by simp)
      split at h
      · exact absurd h (by simp)
      · injection h with h
        subst h
        exact ⟨by simp [hsnap], rfl, rfl⟩

/-- Claim C6: a Trusted Metadata Set freshly bootstrapped from trusted root
bytes is in the root-only state — root present, timestamp, snapshot and all
targets absent — and in every reachable state a timestamp precedes a
snapshot and a snapshot precedes any targets. -/
theorem trusted_set_bootstrap_and_ordering :
    (∀ (oracle : SigOracle) (root : SignedRoot) (s : TrustedSet),
      newTrustedSet oracle root = .ok s →
      s.root = root ∧ s.timestamp = none ∧ s.snapshot = none ∧ s.targets = [])
    ∧ ∀ (oracle : SigOracle) (now : Int) (s : TrustedSet),
      TmsReachable oracle now s → TmsOrdered s := by
  constructor
  · intro oracle root s h
    rw [newTrustedSet_ok oracle root s h]
    exact ⟨rfl, rfl, rfl, rfl⟩
  · intro oracle now s h
    induction h with
    | boot root s hnew =>
        rw [newTrustedSet_ok oracle root s hnew]
        exact ⟨by simp, by simp⟩
    | rootStep s s' cand hr hstep ih =>
        obtain ⟨h1, h2, h3⟩ := tmsUpdateRoot_ok oracle s cand s' hstep
        exact ⟨by rw [h1, h2]; exact ih.1, by rw [h2, h3]; exact ih.2⟩
    | timestampStep s s' cand hr hstep ih =>
        obtain ⟨h1, h2, h3⟩ := tmsUpdateTimestamp_ok oracle now s cand s' hstep
        exact ⟨fun _ => h1, by rw [h2, h3]; exact ih.2⟩
    | snapshotStep s s' cand hr hstep ih =>
        obtain ⟨h0, h1, h2, h3⟩ := tmsUpdateSnapshot_ok oracle now s cand s' hstep
        exact ⟨fun _ => by rw [h1]; exact h0, fun _ => h2⟩
    | targetsStep s s' delegator delegatorKeys roleName cand hr hstep ih =>
        obtain ⟨h0, h1, h2⟩ := tmsUpdateTargets_ok oracle now s delegator delegatorKeys
          roleName cand s' hstep
        exact ⟨fun hs => by rw [h1]; exact ih.1 (by rw [← h2]; exact hs),
          fun _ => by rw [h2]; exact h0⟩

/-- Witness for C6: bootstrapping from the concrete root `mkRoot 1` yields
exactly the root-only state `tms0`, which satisfies the ordering invariant. -/
theorem trusted_set_bootstrap_and_ordering_witness :
    (tms0.root = mkRoot 1 ∧ tms0.timestamp = none ∧ tms0.snapshot = none
      ∧ tms0.targets = [])
    ∧ TmsOrdered tms0 :=
  ⟨trusted_set_bootstrap_and_ordering.1 alwaysOracle (mkRoot 1) tms0 (by rfl),
   trusted_set_bootstrap_and_ordering.2 alwaysOracle 0 tms0
     (TmsReachable.boot (mkRoot 1) tms0 (by rfl))⟩

/-! ## Claim C4 -/

/-- A candidate root with an empty signature list can never pass the
root-update guard when the trusted root's `root` role demands at least one
signature. -/
lemma updateRootDoc_unsigned (oracle : SigOracle) (trusted cand : SignedRoot)
    (hsig : cand.signatures = [])
    (hthresh : ∀ r, trusted.signed.roles.lookup "root" = some r → 1 ≤ r.threshold) :
    ∃ e, updateRootDoc oracle trusted cand = .error e := by
  unfold updateRootDoc
  split
  · exact ⟨_, rfl⟩
  split
  next oldRole newRole hold hnew =>
    have hv : verifyThreshold trusted.signed.keys (oracle.forRoot cand.signed) oldRole
        cand.signatures = false := by
      have h1 := hthresh oldRole hold
      simp only [verifyThreshold, verifiedKeyIDs, hsig, List.filterMap_nil, List.dedup_nil,
        List.length_nil, decide_eq_false_iff_not]
      omega
    rw [hv]
    simp only [Bool.false_eq_true, not_false_eq_true, if_true]
    exact ⟨_, rfl⟩
  next => exact ⟨_, rfl⟩

/-- A candidate root with an empty signature list is likewise rejected at the
Trusted Metadata Set level. -/
lemma tmsUpdateRoot_unsigned (oracle : SigOracle) (ts : TrustedSet) (cand : SignedRoot)
    (hsig : cand.signatures = [])
    (hthresh : ∀ r, ts.root.signed.roles.lookup "root" = some r → 1 ≤ r.threshold) :
    ∃ e, tmsUpdateRoot oracle ts cand = .error e := by
  unfold tmsUpdateRoot
  split
  · exact ⟨_, rfl⟩
  obtain ⟨e, he⟩ := updateRootDoc_unsigned oracle ts.root cand hsig hthresh
  rw [he]
  exact ⟨e, rfl⟩

/-- Claim C4: presenting a candidate root whose signature list has been
cleared rejects the candidate with an error and leaves both the in-memory
trusted state and the persisted root document exactly as they were — at the
single-candidate step and across a whole root refresh. -/
theorem unsigned_root_rejected_all_or_nothing (oracle : SigOracle) (st : ClientState)
    (cand : SignedRoot) (now : Int) (fetch : Nat → Option SignedRoot) (b : Nat)
    (hsig : cand.signatures = [])
    (hthresh : ∀ r, st.trusted.root.signed.roles.lookup "root" = some r → 1 ≤ r.threshold)
    (hf1 : fetch (st.trusted.root.signed.version + 1) = some cand)
    (hfresh : rootExpired st.trusted.root now = false)
    (hdisk : st.persistedRoot = st.trusted.root) :
    (rootRefreshStep oracle st cand).1 = st
    ∧ ((rootRefreshStep oracle st cand).2).isSome = true
    ∧ loadRoot oracle now fetch st (b + 1) = (st, none) := by
  obtain ⟨trustedSet, persisted⟩ := st
  simp only at hthresh hf1 hfresh hdisk
  subst hdisk
  obtain ⟨e, he⟩ := tmsUpdateRoot_unsigned oracle trustedSet cand hsig hthresh
  obtain ⟨e2, he2⟩ := updateRootDoc_unsigned oracle trustedSet.root cand hsig hthresh
  refine ⟨?_, ?_, ?_⟩
  · simp [rootRefreshStep, he]
  · simp [rootRefreshStep, he]
  · have hrot : rotateRoot oracle fetch trustedSet.root (b + 1) = (trustedSet.root, false) := by
      unfold rotateRoot
      rw [hf1]
      simp [he2]
    unfold loadRoot
    rw [hrot]
    simp only [hfresh, Bool.false_eq_true, if_false]

/-- The signature-cleared candidate root of version 2 (witness fixture). -/
def unsignedCand : SignedRoot := { mkRoot 2 with signatures := [] }

/-- A fetcher publishing only the signature-cleared version 2 root
(witness fixture). -/
def unsignedFetch : Nat → Option SignedRoot :=
  fun v => if v = 2 then some unsignedCand else none

/-- Witness for C4: the concrete signature-cleared candidate is rejected and
the concrete client state survives both the step and the refresh unchanged. -/
theorem unsigned_root_rejected_all_or_nothing_witness :
    (rootRefreshStep alwaysOracle clientSt0 unsignedCand).1 = clientSt0
    ∧ ((rootRefreshStep alwaysOracle clientSt0 unsignedCand).2).isSome = true
    ∧ loadRoot alwaysOracle 50 unsignedFetch clientSt0 1 = (clientSt0, none) :=
  unsigned_root_rejected_all_or_nothing alwaysOracle clientSt0 unsignedCand 50
    unsignedFetch 0 rfl (by intro r h; cases h; decide) rfl rfl rfl

/-! ## Claims C3 and C5 -/

/-- The rotation walk stops at the current root when the next version is not
published, with no budget consumed. -/
lemma rotateRoot_none (oracle : SigOracle) (fetch : Nat → Option SignedRoot)
    (r : SignedRoot) (h : fetch (r.signed.version + 1) = none) :
    ∀ b, rotateRoot oracle fetch r b = (r, false)
  | 0 => by unfold rotateRoot; rw [h]; rfl
  | b + 1 => by unfold rotateRoot; rw [h]

/-- One accepted step of the rotation walk consumes one unit of budget and
continues from the accepted candidate. -/
lemma rotateRoot_step (oracle : SigOracle) (fetch : Nat → Option SignedRoot)
    (r c : SignedRoot) (b : Nat)
    (hf : fetch (r.signed.version + 1) = some c)
    (hg : updateRootDoc oracle r c = .ok c) :
    rotateRoot oracle fetch r (b + 1) = rotateRoot oracle fetch c b := by
  conv_lhs => rw [rotateRoot]
  rw [hf]
  simp [hg]

/-- Walking a fully published, fully accepted chain of candidate roots for
`b` steps lands exactly `b` versions ahead and reports that more versions
remained. -/
lemma rotateRoot_chain (oracle : SigOracle) (fetch : Nat → Option SignedRoot)
    (cands : Nat → SignedRoot) (hver : ∀ v, (cands v).signed.version = v) :
    ∀ b w, (∀ v, w < v → v ≤ w + b + 1 → fetch v = some (cands v)) →
      (∀ v, w < v → v ≤ w + b →
        updateRootDoc oracle (cands (v - 1)) (cands v) = .ok (cands v)) →
      rotateRoot oracle fetch (cands w) b = (cands (w + b), true)
  | 0, w, hf, hg => by
      unfold rotateRoot
      rw [hver w, hf (w + 1) (by omega) (by omega)]
      rfl
  | b + 1, w, hf, hg => by
      have h1 : fetch ((cands w).signed.version + 1) = some (cands (w + 1)) := by
        rw [hver w]
        exact hf (w + 1) (by omega) (by omega)
      have h2 : updateRootDoc oracle (cands w) (cands (w + 1)) = .ok (cands (w + 1)) := by
        have h3 := hg (w + 1) (by omega) (by omega)
        simpa using h3
      rw [rotateRoot_step oracle fetch (cands w) (cands (w + 1)) b h1 h2]
      have h4 := rotateRoot_chain oracle fetch cands hver b (w + 1)
        (fun v hv1 hv2 => hf v (by omega) (by omega))
        (fun v hv1 hv2 => hg v (by omega) (by omega))
      rw [h4]
      congr 2
      omega

/-- Claim C3: when a valid, unexpired chain of new root versions longer than
the rotation budget is published, the root stage consumes exactly
`maxRot` versions — the trusted and persisted root afterwards is the
old version plus `maxRot`, not the highest published version, that root is
retained, and the bound violation is reported. -/
theorem max_root_rotations_bound (oracle : SigOracle) (now : Int)
    (fetch : Nat → Option SignedRoot) (cands : Nat → SignedRoot) (st : ClientState)
    (maxRot : Nat)
    (hver : ∀ v, (cands v).signed.version = v)
    (hroot : cands st.trusted.root.signed.version = st.trusted.root)
    (hfetch : ∀ v, st.trusted.root.signed.version < v →
      v ≤ st.trusted.root.signed.version + maxRot + 1 → fetch v = some (cands v))
    (haccept : ∀ v, st.trusted.root.signed.version < v →
      v ≤ st.trusted.root.signed.version + maxRot →
      updateRootDoc oracle (cands (v - 1)) (cands v) = .ok (cands v))
    (hfresh : rootExpired (cands (st.trusted.root.signed.version + maxRot)) now = false) :
    loadRoot oracle now fetch st maxRot =
      ({ trusted := { st.trusted with root := cands (st.trusted.root.signed.version + maxRot) },
         persistedRoot := cands (st.trusted.root.signed.version + maxRot) },
       some .maxRotationsExceeded)
    ∧ (cands (st.trusted.root.signed.version + maxRot)).signed.version =
        st.trusted.root.signed.version + maxRot := by
  have hrot := rotateRoot_chain oracle fetch cands hver maxRot
    st.trusted.root.signed.version hfetch haccept
  rw [hroot] at hrot
  refine ⟨?_, hver _⟩
  unfold loadRoot
  rw [hrot]
  simp only [hfresh, Bool.false_eq_true, if_false, if_true]

/-- Witness for C3: roots v2, v3, v4, v5, ... all published above the trusted
v1 with a budget of 3 — the walk stops at v4 = v1 + 3 and reports the bound. -/
theorem max_root_rotations_bound_witness :
    loadRoot alwaysOracle 50 (fun v => some (mkRoot v)) clientSt0 3 =
      ({ trusted := { tms0 with root := mkRoot 4 }, persistedRoot := mkRoot 4 },
       some .maxRotationsExceeded)
    ∧ (mkRoot 4).signed.version = (mkRoot 1).signed.version + 3 := by
  exact max_root_rotations_bound alwaysOracle 50 (fun v => some (mkRoot v)) mkRoot
    clientSt0 3 (fun v => rfl) rfl (fun v h1 h2 => rfl)
    (by
      intro v h1 h2
      have hb1 : 1 < v := h1
      have hb2 : v ≤ 4 := h2
      interval_cases v <;> rfl) rfl

/-- Claim C5: expiry is not checked on intermediate roots during rotation —
a chain through an expired intermediate to an unexpired final root is
installed with no error — while an expired final root is rejected with an
expiry error and the previous trusted root (state and persisted document)
remains active. -/
theorem rotation_expiry_only_final (oracle : SigOracle) (now : Int) (st : ClientState)
    (c1 c2 : SignedRoot) (fetchA fetchB : Nat → Option SignedRoot) (b : Nat)
    (hva : c1.signed.version = st.trusted.root.signed.version + 1)
    (hvb : c2.signed.version = st.trusted.root.signed.version + 2)
    (ha1 : fetchA (st.trusted.root.signed.version + 1) = some c1)
    (ha2 : fetchA (st.trusted.root.signed.version + 2) = some c2)
    (ha3 : fetchA (st.trusted.root.signed.version + 3) = none)
    (g1 : updateRootDoc oracle st.trusted.root c1 = .ok c1)
    (g2 : updateRootDoc oracle c1 c2 = .ok c2)
    (e1 : rootExpired c1 now = true)
    (e2 : rootExpired c2 now = false)
    (hb1 : fetchB (st.trusted.root.signed.version + 1) = some c1)
    (hb2 : fetchB (st.trusted.root.signed.version + 2) = none) :
    loadRoot oracle now fetchA st (b + 2) =
      ({ trusted := { st.trusted with root := c2 }, persistedRoot := c2 }, none)
    ∧ loadRoot oracle now fetchB st (b + 2) = (st, some .expiredMetadata) := by
  constructor
  · have hrot : rotateRoot oracle fetchA st.trusted.root (b + 2) = (c2, false) := by
      rw [rotateRoot_step oracle fetchA st.trusted.root c1 (b + 1) ha1 g1]
      rw [rotateRoot_step oracle fetchA c1 c2 b (by rw [hva]; exact ha2) g2]
      exact rotateRoot_none oracle fetchA c2 (by rw [hvb]; exact ha3) b
    unfold loadRoot
    rw [hrot]
    simp only [e2, Bool.false_eq_true, if_false]
  · have hrot : rotateRoot oracle fetchB st.trusted.root (b + 2) = (c1, false) := by
      rw [rotateRoot_step oracle fetchB st.trusted.root c1 (b + 1) hb1 g1]
      exact rotateRoot_none oracle fetchB c1 (by rw [hva]; exact hb2) (b + 1)
    unfold loadRoot
    rw [hrot]
    simp only [e1, if_true]

/-- An expired root of version 2 (witness fixture). -/
def expiredRoot2 : SignedRoot := mkRootVE 2 0

/-- An unexpired root of version 3 (witness fixture). -/
def freshRoot3 : SignedRoot := mkRootVE 3 100

/-- A fetcher publishing the expired v2 and the fresh v3 (witness fixture). -/
def fetchExpMid : Nat → Option SignedRoot :=
  fun v => if v = 2 then some expiredRoot2 else if v = 3 then some freshRoot3 else none

/-- A fetcher publishing only the expired v2 (witness fixture). -/
def fetchExpFinal : Nat → Option SignedRoot :=
  fun v => if v = 2 then some expiredRoot2 else none

/-- Witness for C5: at time 50 the expired v2 is walked through to the fresh
v3 with no error, while a refresh ending on the expired v2 errors and keeps
the v1 state. -/
theorem rotation_expiry_only_final_witness :
    loadRoot alwaysOracle 50 fetchExpMid clientSt0 2 =
      ({ trusted := { tms0 with root := freshRoot3 }, persistedRoot := freshRoot3 }, none)
    ∧ loadRoot alwaysOracle 50 fetchExpFinal clientSt0 2 =
        (clientSt0, some .expiredMetadata) := by
  exact rotation_expiry_only_final alwaysOracle 50 clientSt0 expiredRoot2 freshRoot3
    fetchExpMid fetchExpFinal 0 rfl rfl rfl rfl rfl rfl rfl rfl rfl rfl rfl

/-! ## Claim C7 -/

/-- Hex encoding doubles the byte count. -/
lemma length_hexEncode (bs : List Nat) : (hexEncode bs).length = 2 * bs.length := by
  have h : ∀ l : List Nat,
      (l.flatMap (fun b => [hexDigitChar (b / 16 % 16), hexDigitChar (b % 16)])).length
        = 2 * l.length := by
    intro l
    induction l with
    | nil => rfl
    | cons b l ih => simp only [List.flatMap_cons, List.length_append, List.length_cons,
        List.length_nil, ih]; omega
  simpa [hexEncode, String.length] using h bs

/-- A SHA-256 digest is 32 bytes. -/
lemma sha256_length (msg : List Nat) : (sha256 msg).length = 32 := by
  simp [sha256, be32]

/-- Hex digits of values below 16 come from the lower-case hex alphabet. -/
lemma hexDigitChar_mem_alphabet : ∀ n, n < 16 → hexDigitChar n ∈ ("0123456789abcdef").data := by
  decide

/-- Every character of a hex encoding is a lower-case hex digit. -/
lemma hexEncode_chars (bs : List Nat) :
    ∀ c ∈ (hexEncode bs).data, c ∈ ("0123456789abcdef").data := by
  intro c hc
  simp only [hexEncode, List.mem_flatMap, List.mem_cons, List.not_mem_nil, or_false] at hc
  obtain ⟨b, hb, hcb⟩ := hc
  rcases hcb with h | h
  · rw [h]; exact hexDigitChar_mem_alphabet _ (Nat.mod_lt _ (by omega))
  · rw [h]; exact hexDigitChar_mem_alphabet _ (Nat.mod_lt _ (by omega))

/-- Claim C7: on a freshly constructed key, `ID()` returns the lower-case
hex SHA-256 digest of the canonical-JSON encoding of the key (64 hex
characters), stores it in the memoization cell, returns exactly the stored
value on the second call without further state change, and agrees between
any two keys with identical key material. -/
theorem key_id_memoized_hash (k k' : CachedKey)
    (hk : k.idCache = none) (hk' : k'.idCache = none) (hsame : k'.key = k.key) :
    (CachedKey.ID k).1 = hexEncode (sha256 (strBytes (keyCanonicalJSON k.key)))
    ∧ (CachedKey.ID k).2.idCache = some (CachedKey.ID k).1
    ∧ (CachedKey.ID (CachedKey.ID k).2).1 = (CachedKey.ID k).1
    ∧ (CachedKey.ID (CachedKey.ID k).2).2 = (CachedKey.ID k).2
    ∧ (CachedKey.ID k').1 = (CachedKey.ID k).1
    ∧ ((CachedKey.ID k).1).length = 64
    ∧ ∀ c ∈ ((CachedKey.ID k).1).data, c ∈ ("0123456789abcdef").data := by
  have hid : CachedKey.ID k = (keyIDOf k.key, { k with idCache := some (keyIDOf k.key) }) := by
    unfold CachedKey.ID
    rw [hk]
  have hid' : CachedKey.ID k'
      = (keyIDOf k'.key, { k' with idCache := some (keyIDOf k'.key) }) := by
    unfold CachedKey.ID
    rw [hk']
  rw [hid, hid']
  refine ⟨rfl, rfl, rfl, rfl, by rw [hsame], ?_, ?_⟩
  · show (keyIDOf k.key).length = 64
    unfold keyIDOf
    rw [length_hexEncode, sha256_length]
  · exact hexEncode_chars _

/-- The concrete key `testKeyA` with an unfired memoization cell
(witness fixture). -/
def cachedKeyA : CachedKey := { key := testKeyA, idCache := none }

/-- Witness for C7: the concrete fresh key computes the hash formula, caches
it, and yields a 64-character ID. -/
theorem key_id_memoized_hash_witness :
    (CachedKey.ID cachedKeyA).1 = hexEncode (sha256 (strBytes (keyCanonicalJSON cachedKeyA.key)))
    ∧ (CachedKey.ID cachedKeyA).2.idCache = some (CachedKey.ID cachedKeyA).1
    ∧ ((CachedKey.ID cachedKeyA).1).length = 64 :=
  have h := key_id_memoized_hash cachedKeyA cachedKeyA rfl rfl rfl
  ⟨h.1, h.2.1, h.2.2.2.2.2.1⟩

/-! ## Claim C8 -/

/-- Claim C8: `ToPublicKey` hard-errors on every declared key type outside
the supported kinds, and errors on a supported type whose stored material
fails to decode to that type — a failed PEM parse propagates its error, a
PEM parse yielding the wrong key shape is rejected, and Ed25519 material
that is not valid hex is rejected. -/
theorem to_public_key_error_paths :
    (∀ (pemParse : String → Except String PubKey) (pkixOK : PubKey → Bool) (k : Key),
      k.keyType ≠ KeyTypeRSASSA_PSS_SHA256 → k.keyType ≠ KeyTypeECDSA_SHA2_P256 →
      k.keyType ≠ KeyTypeECDSA_SHA2_P256_SSLIB → k.keyType ≠ KeyTypeEd25519 →
      Key.toPublicKey pemParse pkixOK k = .error "unsupported public key type")
    ∧ (∀ (pemParse : String → Except String PubKey) (pkixOK : PubKey → Bool) (k : Key)
        (e : String),
      (k.keyType = KeyTypeRSASSA_PSS_SHA256 ∨ k.keyType = KeyTypeECDSA_SHA2_P256 ∨
        k.keyType = KeyTypeECDSA_SHA2_P256_SSLIB) →
      pemParse k.value.publicKey = .error e →
      Key.toPublicKey pemParse pkixOK k = .error e)
    ∧ (∀ (pemParse : String → Except String PubKey) (pkixOK : PubKey → Bool) (k : Key)
        (pk : PubKey),
      k.keyType = KeyTypeRSASSA_PSS_SHA256 →
      pemParse k.value.publicKey = .ok pk → (∀ m e, pk ≠ .rsa m e) →
      Key.toPublicKey pemParse pkixOK k = .error "invalid rsa public key")
    ∧ (∀ (pemParse : String → Except String PubKey) (pkixOK : PubKey → Bool) (k : Key)
        (pk : PubKey),
      (k.keyType = KeyTypeECDSA_SHA2_P256 ∨ k.keyType = KeyTypeECDSA_SHA2_P256_SSLIB) →
      pemParse k.value.publicKey = .ok pk → (∀ x y, pk ≠ .ecdsa x y) →
      Key.toPublicKey pemParse pkixOK k = .error "invalid ecdsa public key")
    ∧ (∀ (pemParse : String → Except String PubKey) (pkixOK : PubKey → Bool) (k : Key),
      k.keyType = KeyTypeEd25519 → hexDecode k.value.publicKey = none →
      Key.toPublicKey pemParse pkixOK k = .error "encoding-hex decode failed") := by
  refine ⟨?_, ?_, ?_, ?_, ?_⟩
  · intro pemParse pkixOK k h1 h2 h3 h4
    unfold Key.toPublicKey
    rw [if_neg h1, if_neg (by tauto), if_neg h4]
  · intro pemParse pkixOK k e ht hp
    unfold Key.toPublicKey
    rcases ht with h | h | h
    · rw [if_pos h, hp]
    · rw [if_neg (by rw [h]; decide), if_pos (Or.inl h), hp]
    · rw [if_neg (by rw [h]; decide), if_pos (Or.inr h), hp]
  · intro pemParse pkixOK k pk ht hp hshape
    unfold Key.toPublicKey
    rw [if_pos ht, hp]
    cases pk with
    | rsa m e => exact absurd rfl (hshape m e)
    | ecdsa x y => rfl
    | ed25519 bs => rfl
    | otherKey => rfl
  · intro pemParse pkixOK k pk ht hp hshape
    unfold Key.toPublicKey
    have hne : k.keyType ≠ KeyTypeRSASSA_PSS_SHA256 := by
      rcases ht with h | h <;> rw [h] <;> decide
    rw [if_neg hne, if_pos ht, hp]
    cases pk with
    | rsa m e => rfl
    | ecdsa x y => exact absurd rfl (hshape x y)
    | ed25519 bs => rfl
    | otherKey => rfl
  · intro pemParse pkixOK k ht hd
    unfold Key.toPublicKey
    have hne1 : k.keyType ≠ KeyTypeRSASSA_PSS_SHA256 := by rw [ht]; decide
    have hne2 : ¬ (k.keyType = KeyTypeECDSA_SHA2_P256
        ∨ k.keyType = KeyTypeECDSA_SHA2_P256_SSLIB) := by
      rw [ht]; decide
    rw [if_neg hne1, if_neg hne2, if_pos ht, hd]

/-- A PEM parser that always fails (witness fixture). -/
def failParse : String → Except String PubKey := fun _ => .error "bad pem"

/-- A PKIX verification round that always succeeds (witness fixture). -/
def constTrue : PubKey → Bool := fun _ => true

/-- Witness for C8: concrete keys hitting each error path — an unsupported
`dsa` type, a failing PEM parse, wrong decoded shapes for RSA and ECDSA, and
non-hex Ed25519 material. -/
theorem to_public_key_error_paths_witness :
    Key.toPublicKey failParse constTrue
        { keyType := "dsa", scheme := "dsa", value := { publicKey := "x" } }
      = .error "unsupported public key type"
    ∧ Key.toPublicKey failParse constTrue
        { keyType := "rsa", scheme := "rsassa-pss-sha256", value := { publicKey := "x" } }
      = .error "bad pem"
    ∧ Key.toPublicKey (fun _ => .ok .otherKey) constTrue
        { keyType := "rsa", scheme := "rsassa-pss-sha256", value := { publicKey := "x" } }
      = .error "invalid rsa public key"
    ∧ Key.toPublicKey (fun _ => .ok .otherKey) constTrue
        { keyType := "ecdsa", scheme := "ecdsa-sha2-nistp256", value := { publicKey := "x" } }
      = .error "invalid ecdsa public key"
    ∧ Key.toPublicKey failParse constTrue
        { keyType := "ed25519", scheme := "ed25519", value := { publicKey := "zz" } }
      = .error "encoding-hex decode failed" :=
  ⟨to_public_key_error_paths.1 failParse constTrue _ (by decide) (by decide) (by decide)
      (by decide),
   to_public_key_error_paths.2.1 failParse constTrue _ "bad pem" (Or.inl rfl) rfl,
   to_public_key_error_paths.2.2.1 (fun _ => .ok .otherKey) constTrue _ .otherKey rfl rfl
      (fun m e h => PubKey.noConfusion h),
   to_public_key_error_paths.2.2.2.1 (fun _ => .ok .otherKey) constTrue _ .otherKey
      (Or.inr rfl) rfl (fun x y h => PubKey.noConfusion h),
   to_public_key_error_paths.2.2.2.2 failParse constTrue _ rfl rfl⟩

/-! ## Claim C9 -/

/-- Decoding inverts the hex digit for values below 16. -/
lemma hexVal_hexDigitChar : ∀ n, n < 16 → hexVal (hexDigitChar n) = some n := by decide

/-- The fold underlying `unhex`, started from an arbitrary accumulator. -/
lemma unhex_acc (cs : List Char) :
    ∀ a, cs.foldl (fun acc c => acc * 16 + (hexVal c).getD 0) a
      = a * 16 ^ cs.length + unhex cs := by
  induction cs with
  | nil => intro a; simp [unhex]
  | cons c cs ih =>
      intro a
      have h0 : unhex (c :: cs)
          = ((hexVal c).getD 0) * 16 ^ cs.length + unhex cs := by
        show List.foldl _ (0 * 16 + (hexVal c).getD 0) cs = _
        rw [ih]
        ring_nf
      show List.foldl _ (a * 16 + (hexVal c).getD 0) cs = _
      rw [ih, h0]
      simp only [List.length_cons, pow_succ]
      ring

/-- Reading back the minimal hex digits of `n` yields `n`. -/
lemma unhex_hexCore (n : Nat) : unhex (hexCore n) = n := by
  induction n using Nat.strong_induction_on with
  | _ n ih =>
      rw [hexCore]
      split
      · next h =>
          show (0 * 16 + (hexVal (hexDigitChar n)).getD 0) = n
          rw [hexVal_hexDigitChar n h]
          simp
      · next h =>
          show List.foldl _ 0 (hexCore (n / 16) ++ [hexDigitChar (n % 16)]) = n
          rw [List.foldl_append]
          show (unhex (hexCore (n / 16))) * 16 + (hexVal (hexDigitChar (n % 16))).getD 0 = n
          rw [ih (n / 16) (Nat.div_lt_self (by omega) (by omega)),
            hexVal_hexDigitChar (n % 16) (Nat.mod_lt _ (by omega))]
          have h2 := Nat.div_add_mod n 16
          simp only [Option.getD_some]
          omega

/-- Leading zero padding does not change the decoded value. -/
lemma unhex_replicate_zero (k : Nat) (cs : List Char) :
    unhex (List.replicate k '0' ++ cs) = unhex cs := by
  induction k with
  | zero => rfl
  | succ k ih =>
      rw [List.replicate_succ, List.cons_append]
      show List.foldl _ (0 * 16 + (hexVal '0').getD 0) _ = _
      have h0 : (0 * 16 + (hexVal '0').getD 0) = 0 := by decide
      rw [h0]
      exact ih

/-- Reading back a zero-padded hex representation yields the value. -/
lemma unhex_hexPad (len n : Nat) : unhex (hexPad len n) = n := by
  unfold hexPad
  rw [unhex_replicate_zero, unhex_hexCore]

/-- Zero-padded hex representations of a fixed width are injective. -/
lemma hexPad_injective (len a b : Nat) (h : hexPad len a = hexPad len b) : a = b := by
  have h2 := congrArg unhex h
  rwa [unhex_hexPad, unhex_hexPad] at h2

/-- Claim C9: the bin role of a target path is the name prefix followed by
the zero-padded hex of `bit_length` bits of the path's SHA-256 digest taken
big-endian, most significant bits first (the digest's leading `bit_length`
bits); the map is deterministic (equal paths always resolve to the same bin
role), and two paths whose hashes land in different bins are never resolved
by the same bin role. -/
theorem succinct_bin_role (sr : SuccinctRoles) (p p1 p2 : String) :
    SuccinctRoles.getRoleForTarget sr p =
      sr.prefixName ++ String.mk (hexPad (binSuffixLen sr.bitLength)
        (beNat ((sha256 (strBytes p)).take 4) >>> (32 - sr.bitLength)))
    ∧ (p1 = p2 →
        SuccinctRoles.getRoleForTarget sr p1 = SuccinctRoles.getRoleForTarget sr p2)
    ∧ (binIndex sr.bitLength p1 ≠ binIndex sr.bitLength p2 →
        SuccinctRoles.getRoleForTarget sr p1 ≠ SuccinctRoles.getRoleForTarget sr p2) := by
  refine ⟨rfl, fun h => by rw [h], fun hne heq => hne ?_⟩
  unfold SuccinctRoles.getRoleForTarget at heq
  have hd := congrArg String.data heq
  rw [String.data_append, String.data_append] at hd
  have hp := List.append_cancel_left hd
  exact hexPad_injective _ _ _ hp

/-- A succinct-roles descriptor partitioning paths into 256 bins
(witness fixture). -/
def binRoles : SuccinctRoles :=
  { keyIDs := ["idA"], threshold := 1, bitLength := 8, prefixName := "bin-" }

/-- Witness for C9: the digest of `"a/b.txt"` starts `0x55…`, so with
`bit_length` 8 it lands in bin 85 (cross-checked against an independent
SHA-256 implementation); `"x.txt"` (digest `0x8a…`) lands in a different
bin, and the two paths resolve to different bin roles. -/
theorem succinct_bin_role_witness :
    binIndex 8 "a/b.txt" = 85
    ∧ binIndex 8 "a/b.txt" ≠ binIndex 8 "x.txt"
    ∧ SuccinctRoles.getRoleForTarget binRoles "a/b.txt"
        ≠ SuccinctRoles.getRoleForTarget binRoles "x.txt" :=
  ⟨by decide, by decide,
   (succinct_bin_role binRoles "a/b.txt" "a/b.txt" "x.txt").2.2 (by decide)⟩

/-! ## Claim C10 -/

/-- Hex decoding inverts hex encoding on byte lists (character-list level). -/
lemma hexDecodeChars_encode (bs : List Nat) (h : ∀ b ∈ bs, b < 256) :
    hexDecodeChars (bs.flatMap (fun b => [hexDigitChar (b / 16 % 16), hexDigitChar (b % 16)]))
      = some bs := by
  induction bs with
  | nil => rfl
  | cons b bs ih =>
      have hb : b < 256 := h b (List.mem_cons_self _ _)
      have hdivlt : b / 16 < 16 := by omega
      rw [List.flatMap_cons]
      show hexDecodeChars (hexDigitChar (b / 16 % 16) :: hexDigitChar (b % 16)
        :: bs.flatMap _) = _
      unfold hexDecodeChars
      rw [hexVal_hexDigitChar _ (Nat.mod_lt _ (by omega)),
          hexVal_hexDigitChar _ (Nat.mod_lt _ (by omega)),
          ih (fun x hx => h x (List.mem_cons_of_mem _ hx))]
      have hval : b / 16 % 16 * 16 + b % 16 = b := by
        have hmm : b / 16 % 16 = b / 16 := Nat.mod_eq_of_lt hdivlt
        rw [hmm]
        omega
      show some (((b / 16 % 16) * 16 + b % 16) :: bs) = some (b :: bs)
      rw [hval]

/-- Hex decoding inverts hex encoding on byte lists. -/
lemma hexDecode_hexEncode (bs : List Nat) (h : ∀ b ∈ bs, b < 256) :
    hexDecode (hexEncode bs) = some bs :=
  hexDecodeChars_encode bs h

/-- Claim C10: for every supported public key — RSA, ECDSA-P256 or Ed25519 —
`KeyFromPublicKey` succeeds with the expected metadata key and `ToPublicKey`
on that key recovers exactly the original public key, given that the
external PEM codec round-trips and the PKIX verification round accepts the
key (for Ed25519 the hex round trip is fully concrete). -/
theorem key_encoding_round_trip :
    (∀ (pemMake : PubKey → Except String String) (pemParse : String → Except String PubKey)
        (pkixOK : PubKey → Bool) (m e : Nat) (pem : String),
      (∀ q s, pemMake q = .ok s → pemParse s = .ok q) →
      pkixOK (.rsa m e) = true →
      pemMake (.rsa m e) = .ok pem →
      keyFromPublicKey pemMake (.rsa m e)
        = .ok { keyType := KeyTypeRSASSA_PSS_SHA256, scheme := KeySchemeRSASSA_PSS_SHA256,
                value := { publicKey := pem } }
      ∧ Key.toPublicKey pemParse pkixOK
          { keyType := KeyTypeRSASSA_PSS_SHA256, scheme := KeySchemeRSASSA_PSS_SHA256,
            value := { publicKey := pem } } = .ok (.rsa m e))
    ∧ (∀ (pemMake : PubKey → Except String String) (pemParse : String → Except String PubKey)
        (pkixOK : PubKey → Bool) (x y : Nat) (pem : String),
      (∀ q s, pemMake q = .ok s → pemParse s = .ok q) →
      pkixOK (.ecdsa x y) = true →
      pemMake (.ecdsa x y) = .ok pem →
      keyFromPublicKey pemMake (.ecdsa x y)
        = .ok { keyType := KeyTypeECDSA_SHA2_P256, scheme := KeySchemeECDSA_SHA2_P256,
                value := { publicKey := pem } }
      ∧ Key.toPublicKey pemParse pkixOK
          { keyType := KeyTypeECDSA_SHA2_P256, scheme := KeySchemeECDSA_SHA2_P256,
            value := { publicKey := pem } } = .ok (.ecdsa x y))
    ∧ (∀ (pemMake : PubKey → Except String String) (pemParse : String → Except String PubKey)
        (pkixOK : PubKey → Bool) (bs : List Nat),
      (∀ b ∈ bs, b < 256) → pkixOK (.ed25519 bs) = true →
      keyFromPublicKey pemMake (.ed25519 bs)
        = .ok { keyType := KeyTypeEd25519, scheme := KeySchemeEd25519,
                value := { publicKey := hexEncode bs } }
      ∧ Key.toPublicKey pemParse pkixOK
          { keyType := KeyTypeEd25519, scheme := KeySchemeEd25519,
            value := { publicKey := hexEncode bs } } = .ok (.ed25519 bs)) := by
  refine ⟨?_, ?_, ?_⟩
  · intro pemMake pemParse pkixOK m e pem hrt hpkix hmake
    constructor
    · simp only [keyFromPublicKey]
      rw [hmake]
    · unfold Key.toPublicKey
      rw [if_pos rfl]
      have hparse := hrt (.rsa m e) pem hmake
      simp [hparse, hpkix]
  · intro pemMake pemParse pkixOK x y pem hrt hpkix hmake
    constructor
    · simp only [keyFromPublicKey]
      rw [hmake]
    · unfold Key.toPublicKey
      rw [if_neg (show ¬ KeyTypeECDSA_SHA2_P256 = KeyTypeRSASSA_PSS_SHA256 by decide),
        if_pos (Or.inl rfl)]
      have hparse := hrt (.ecdsa x y) pem hmake
      simp [hparse, hpkix]
  · intro pemMake pemParse pkixOK bs hbs hpkix
    constructor
    · rfl
    · unfold Key.toPublicKey
      rw [if_neg (show ¬ KeyTypeEd25519 = KeyTypeRSASSA_PSS_SHA256 by decide),
        if_neg (show ¬ (KeyTypeEd25519 = KeyTypeECDSA_SHA2_P256
          ∨ KeyTypeEd25519 = KeyTypeECDSA_SHA2_P256_SSLIB) by decide),
        if_pos rfl]
      simp [hexDecode_hexEncode bs hbs, hpkix]

/-- A two-entry PEM encoder (witness fixture). -/
def codecMake : PubKey → Except String String :=
  fun q => if q = .rsa 7 3 then .ok "PEM-R"
    else if q = .ecdsa 2 5 then .ok "PEM-E" else .error "no pem"

/-- The matching two-entry PEM parser (witness fixture). -/
def codecParse : String → Except String PubKey :=
  fun s => if s = "PEM-R" then .ok (.rsa 7 3)
    else if s = "PEM-E" then .ok (.ecdsa 2 5) else .error "no pem"

/-- The two-entry codec round-trips (witness fixture). -/
lemma codec_round_trip : ∀ q s, codecMake q = .ok s → codecParse s = .ok q := by
  intro q s h
  unfold codecMake at h
  split at h
  · next hq =>
      injection h with h
      subst hq h
      rfl
  split at h
  · next hq =>
      injection h with h
      subst hq h
      rfl
  · exact absurd h (by simp)

/-- Witness for C10: the concrete RSA, ECDSA and Ed25519 keys round-trip
through the metadata key encoding back to themselves. -/
theorem key_encoding_round_trip_witness :
    (keyFromPublicKey codecMake (.rsa 7 3)
        = .ok { keyType := KeyTypeRSASSA_PSS_SHA256, scheme := KeySchemeRSASSA_PSS_SHA256,
                value := { publicKey := "PEM-R" } }
      ∧ Key.toPublicKey codecParse constTrue
          { keyType := KeyTypeRSASSA_PSS_SHA256, scheme := KeySchemeRSASSA_PSS_SHA256,
            value := { publicKey := "PEM-R" } } = .ok (.rsa 7 3))
    ∧ (keyFromPublicKey codecMake (.ecdsa 2 5)
        = .ok { keyType := KeyTypeECDSA_SHA2_P256, scheme := KeySchemeECDSA_SHA2_P256,
                value := { publicKey := "PEM-E" } }
      ∧ Key.toPublicKey codecParse constTrue
          { keyType := KeyTypeECDSA_SHA2_P256, scheme := KeySchemeECDSA_SHA2_P256,
            value := { publicKey := "PEM-E" } } = .ok (.ecdsa 2 5))
    ∧ (keyFromPublicKey codecMake (.ed25519 [0, 255])
        = .ok { keyType := KeyTypeEd25519, scheme := KeySchemeEd25519,
                value := { publicKey := hexEncode [0, 255] } }
      ∧ Key.toPublicKey codecParse constTrue
          { keyType := KeyTypeEd25519, scheme := KeySchemeEd25519,
            value := { publicKey := hexEncode [0, 255] } } = .ok (.ed25519 [0, 255])) :=
  ⟨key_encoding_round_trip.1 codecMake codecParse constTrue 7 3 "PEM-R"
      codec_round_trip rfl rfl,
   key_encoding_round_trip.2.1 codecMake codecParse constTrue 2 5 "PEM-E"
      codec_round_trip rfl rfl,
   key_encoding_round_trip.2.2 codecMake codecParse constTrue [0, 255]
      (by decide) rfl⟩
